import Mathlib

/-!
Verification of the JSON:API query compiler in
`src/sqlalchemy_utils/json_api.py` (repository `derkan/sqlalchemy-utils`).

The file shallowly embeds the query-construction code of `json_api.py`:

* schema metadata (columns, relationships) as exposed by SQLAlchemy
  inspection is a `Schema` value;
* `select_aggregate`, `JSONMapping.build_attributes`,
  `JSONMapping.build_id_and_type`, `JSONMapping.build_relationships`,
  `JSONMapping.build_attrs_and_relationships`, `JSONMapping.build_data`,
  `JSONMapping.build_included` and `JSONMapping.select` are translated to
  total Lean functions returning `Except PyError`, mirroring the
  exceptions the Python code can raise (`KeyError`, `AttributeError`,
  `TypeError`, `IndexError`);
* the anonymous-alias generation done by `sa.orm.aliased(...)` and by
  `Query.join(..., aliased=True)` (every call yields a fresh, never
  reused alias) is made explicit by threading a counter `k : Nat`
  through the builders; an alias is an `AliasedEntity` whose `uid` field
  is `some i` for the i-th fresh anonymous alias and `none` for an
  unaliased (plain) class reference;
* a small evaluator captures the PostgreSQL semantics actually used by
  the produced expressions: `json_build_object` builds an object,
  a scalar subquery over zero rows yields SQL `NULL`, a scalar subquery
  over more than one row is a runtime error, and `array_agg` over zero
  input rows yields SQL `NULL` (never an empty array).

`path_to_relationships` is imported by the source from
`sqlalchemy_utils.relationships`, a module that is not part of the
sources under verification; it is modelled from the spec (see its doc
comment below).
-/

namespace JsonApi

/-- A database column as exposed by SQLAlchemy inspection
(`sa.inspect(entity).columns`): its key, whether it is part of the
primary key, and whether it carries a foreign key
(`has_foreign_key` in the source inspects `column.table.foreign_keys`). -/
structure Column where
  name : String
  primary_key : Bool
  foreign_key : Bool
deriving DecidableEq, Repr

/-- A SQLAlchemy relationship property: its key, the related class
(`relationship.mapper.class_`), its cardinality flag
(`relationship.uselist`) and the optional secondary (junction) table
(`relationship.secondary`).  The join condition
(`relationship.primaryjoin`) is represented by the relationship itself
wherever the source uses it as a filter. -/
structure Relationship where
  key : String
  target : String
  uselist : Bool
  secondary : Option String
deriving DecidableEq, Repr

/-- A mapped class: its name, columns and relationship properties. -/
structure EntityClass where
  name : String
  columns : List Column
  relationships : List Relationship
deriving DecidableEq, Repr

/-- The set of mapped classes known to the ORM; class attribute access
(`getattr`) is resolved against it. -/
abbrev Schema := List EntityClass

/-- Python exceptions the translated code can raise.  The last two
constructors name the error classes the spec postulates
(`UnknownRelationshipError` for the spec-modelled path resolver,
`EmptyIncludeSetError` which the source never raises anywhere). -/
inductive PyError where
  | typeError
  | keyError (k : String)
  | attributeError (a : String)
  | indexError
  | unknownRelationshipError (segment : String) (cls : String)
  | emptyIncludeSetError
deriving DecidableEq, Repr

/-- Association-list lookup, mirroring Python `dict` access order
(first binding wins; the dicts built by the source have unique keys). -/
def alistLookup {α : Type} (l : List (String × α)) (k : String) : Option α :=
  (l.find? (fun p => p.1 == k)).map (fun p => p.2)

def findClass (schema : Schema) (name : String) : Option EntityClass :=
  schema.find? (fun c => c.name == name)

/-- `getattr(cls, key)` resolving a relationship attribute on a mapped
class; raises `AttributeError` when the class has no such relationship. -/
def getattrRel (schema : Schema) (cls : String) (key : String) :
    Except PyError Relationship :=
  match findClass schema cls with
  | none => Except.error (PyError.attributeError key)
  | some c =>
    match c.relationships.find? (fun r => r.key == key) with
    | none => Except.error (PyError.attributeError key)
    | some r => Except.ok r

/-- An entity reference inside a query: a class, either plain
(`uid = none`) or under a fresh anonymous alias (`uid = some i`), as
produced by `sa.orm.aliased(...)` / `join(..., aliased=True)`. -/
structure AliasedEntity where
  cls : String
  uid : Option Nat
deriving DecidableEq, Repr

/-- The join plan built by `select_aggregate`: the FROM entity, the
joined entities in order (each with the relationship key it was joined
on), the optional secondary-table join, and the terminal relationship
whose `primaryjoin` is the correlation filter. -/
structure AggQuery where
  fromEntity : AliasedEntity
  joins : List (AliasedEntity × String)
  secondaryJoin : Option String
  filterRel : Relationship
deriving DecidableEq, Repr

/-- The loop `for relationship in relationships[0:-2]` of
`select_aggregate`: each iteration joins
`getattr(alias, relationship.key)` with `aliased=True` (a fresh
anonymous alias for the join target) and then rebinds
`alias = relationship.mapper.class_`, so the next `getattr` resolves on
the plain class of the current hop's target.  Returns the joins, the
class the final `getattr` will resolve on, and the next fresh uid. -/
def joinMiddle (schema : Schema) :
    List Relationship → String → Nat →
    Except PyError (List (AliasedEntity × String) × String × Nat)
  | [], cls, k => Except.ok ([], cls, k)
  | rel :: rest, cls, k => do
    let r ← getattrRel schema cls rel.key
    let (js, cls2, k2) ← joinMiddle schema rest rel.target (k + 1)
    Except.ok ((⟨r.target, some k⟩, rel.key) :: js, cls2, k2)

/-- Translation of `select_aggregate(session, agg_expr, relationships)`
(json_api.py lines 30-72).  The aggregate expression is supplied by the
caller and is not part of the join plan, so it is not a parameter here;
the session only scopes the query.  `relationships[0]` on an empty
sequence raises `IndexError`.  For a chain of length greater than one
the FROM entity is `sa.orm.aliased(relationships[0].mapper.class_)`
(fresh uid `k`), the hops `relationships[0:-2]` are joined through
`joinMiddle` (fresh uids `k+1, ...`), and `relationships[-2]` is joined
without aliasing (plain target).  The terminal relationship contributes
the optional secondary join and the correlation filter. -/
def select_aggregate (schema : Schema) (relationships : List Relationship)
    (k : Nat) : Except PyError (AggQuery × Nat) :=
  match relationships with
  | [] => Except.error PyError.indexError
  | r0 :: rest =>
    let last := rest.getLastD r0
    if 1 < (r0 :: rest).length then
      match joinMiddle schema ((r0 :: rest).dropLast.dropLast) r0.target (k + 1) with
      | Except.error e => Except.error e
      | Except.ok (js, cls2, k2) =>
        let penult := rest.dropLast.getLastD r0
        match getattrRel schema cls2 penult.key with
        | Except.error e => Except.error e
        | Except.ok r2 =>
          Except.ok (⟨⟨r0.target, some k⟩,
                      js ++ [(⟨r2.target, none⟩, penult.key)],
                      last.secondary, last⟩, k2)
    else
      Except.ok (⟨⟨r0.target, none⟩, [], last.secondary, last⟩, k)

/-- SQL expressions appearing in the constructed query: the quoted text
literal `s(value)`, a column/attribute reference, the call
`sa.func.json_build_object(*args)`, and the two shapes of correlated
scalar sub-query produced by `build_relationships` from a
`select_aggregate` join plan: `scalarOne` selects the inner expression
itself, `scalarAgg` selects `sa.func.array_agg(inner)`. -/
inductive SExpr where
  | lit (v : String)
  | attr (cls : String) (name : String)
  | jbo (args : List SExpr)
  | scalarOne (q : AggQuery) (inner : SExpr)
  | scalarAgg (q : AggQuery) (inner : SExpr)
deriving Repr

/-- `s(value)` (json_api.py lines 75-76): a quoted SQL text literal. -/
def s (value : String) : SExpr := SExpr.lit value

/-- `has_foreign_key(column)` (lines 79-80). -/
def has_foreign_key (column : Column) : Bool := column.foreign_key

/-- A field selection: the Python `fields` dict, alias name to list of
selected field names.  `Option Fields` distinguishes `fields=None`. -/
abbrev Fields := List (String × List String)

/-- Python truthiness of the optional `fields` dict: `None` and the
empty dict are falsy. -/
def fieldsTruthy : Option Fields → Bool
  | none => false
  | some fs => !fs.isEmpty

/-- `key in fields` when `fields` is known to be a dict. -/
def fieldsHas (fields : Option Fields) (key : String) : Bool :=
  match fields with
  | none => false
  | some fs => fs.any (fun p => p.1 == key)

/-- `fields[key]` subscripting on the optional dict: `None[key]` raises
`TypeError`, a missing key raises `KeyError`. -/
def pySubscript (fields : Option Fields) (key : String) :
    Except PyError (List String) :=
  match fields with
  | none => Except.error PyError.typeError
  | some fs =>
    match alistLookup fs key with
    | some v => Except.ok v
    | none => Except.error (PyError.keyError key)

/-- `key in fields` on the optional dict: membership against `None`
raises `TypeError` (the test is not defined for `NoneType`). -/
def pyInOpt (key : String) (fields : Option Fields) : Except PyError Bool :=
  match fields with
  | none => Except.error PyError.typeError
  | some fs => Except.ok (fs.any (fun p => p.1 == key))

/-- `JSONMapping.__init__` (lines 83-88): the alias-to-class mapping.
All claims exercise a constructed (non-`None`) mapping. -/
structure JSONMapping where
  mapping : List (String × String)
deriving DecidableEq, Repr

/-- `self.inversed`: the class-to-alias dict inverted from `mapping`. -/
def inversed (m : JSONMapping) : List (String × String) :=
  m.mapping.map (fun p => (p.2, p.1))

/-- `self.inversed[entity]`: dict access raising `KeyError` when the
class has no registered alias. -/
def inversedGet (m : JSONMapping) (clsName : String) :
    Except PyError String :=
  match alistLookup (inversed m) clsName with
  | some a => Except.ok a
  | none => Except.error (PyError.keyError clsName)

/-- The predicate `skip_field(key, column)` defined inside
`build_attributes` (lines 96-105): skip primary-key columns,
foreign-key columns, and — when `fields` is truthy and the entity's
alias is a key of it — any column not listed for that alias. -/
def skip_field (fields : Option Fields) (entity_name : String)
    (key : String) (column : Column) : Bool :=
  column.primary_key || has_foreign_key column ||
    (fieldsTruthy fields && fieldsHas fields entity_name &&
      !((match fields with
         | none => []
         | some fs => (alistLookup fs entity_name).getD []).contains key))

/-- `JSONMapping.build_attributes(entity, fields)` (lines 93-115): the
flat `[s(key), column, ...]` list over the non-skipped columns, in
column order. -/
def build_attributes (m : JSONMapping) (entity : EntityClass)
    (fields : Option Fields) : Except PyError (List SExpr) := do
  let entity_name ← inversedGet m entity.name
  Except.ok
    ((entity.columns.filter
        (fun c => !skip_field fields entity_name c.name c)).flatMap
      (fun c => [s c.name, SExpr.attr entity.name c.name]))

/-- `JSONMapping.build_id_and_type(model)` (lines 117-124): the flat
list `[s('id'), model.id, s('type'), s(model_alias)]`.  `model.id` is a
plain attribute access on the class, so it refers to the column whose
key is literally `id` (and raises `AttributeError` when no such column
exists) — it does not consult the primary-key metadata. -/
def build_id_and_type (m : JSONMapping) (model : EntityClass) :
    Except PyError (List SExpr) := do
  let model_alias ← inversedGet m model.name
  if model.columns.any (fun c => c.name == "id") then
    Except.ok [s "id", SExpr.attr model.name "id", s "type", s model_alias]
  else
    Except.error (PyError.attributeError "id")

/-- The loop body of `build_relationships` (lines 160-179): for each
selected relationship emit `s(relationship.key)` followed by
`json_build_object(s('data'), query.as_scalar())` where the scalar
query is `select_aggregate` over the single-hop chain `[relationship]`
selecting `json_build_object(*build_id_and_type(target))`, wrapped in
`array_agg` exactly when `relationship.uselist`. -/
def buildRelLoop (schema : Schema) (m : JSONMapping) :
    List Relationship → Nat → Except PyError (List SExpr × Nat)
  | [], k => Except.ok ([], k)
  | rel :: rest, k => do
    let targetCls ←
      match findClass schema rel.target with
      | some c => Except.ok c
      | none => Except.error (PyError.keyError rel.target)
    let relationship_attrs ← build_id_and_type m targetCls
    let (q, k2) ← select_aggregate schema [rel] k
    let dataVal : SExpr :=
      if rel.uselist then SExpr.scalarAgg q (SExpr.jbo relationship_attrs)
      else SExpr.scalarOne q (SExpr.jbo relationship_attrs)
    let (restEntries, k3) ← buildRelLoop schema m rest k2
    Except.ok (s rel.key :: SExpr.jbo [s "data", dataVal] :: restEntries, k3)

/-- `JSONMapping.build_relationships(session, entity, fields)`
(lines 151-180): select, in field-list order, the selected names that
are declared relationships of the entity, then run the loop.
`fields[model_alias]` is a plain subscript (`TypeError` on `None`,
`KeyError` on a missing alias). -/
def build_relationships (schema : Schema) (m : JSONMapping)
    (entity : EntityClass) (fields : Option Fields) (k : Nat) :
    Except PyError (List SExpr × Nat) := do
  let model_alias ← inversedGet m entity.name
  let flist ← pySubscript fields model_alias
  let rels := flist.filterMap
    (fun f => entity.relationships.find? (fun r => r.key == f))
  buildRelLoop schema m rels k

/-- `JSONMapping.build_attrs_and_relationships(session, entity, fields)`
(lines 126-149): append an `attributes` entry when the attribute list
is non-empty and a `relationships` entry when the relationship list is
non-empty. -/
def build_attrs_and_relationships (schema : Schema) (m : JSONMapping)
    (entity : EntityClass) (fields : Option Fields) (k : Nat) :
    Except PyError (List SExpr × Nat) := do
  let attrs ← build_attributes m entity fields
  let (json_relationships, k2) ← build_relationships schema m entity fields k
  let withAttrs :=
    if attrs.isEmpty then [] else [s "attributes", SExpr.jbo attrs]
  let withRels :=
    if json_relationships.isEmpty then []
    else [s "relationships", SExpr.jbo json_relationships]
  Except.ok (withAttrs ++ withRels, k2)

/-- The root `data` block built by `build_data` (lines 192-207): an
array-aggregate over all rows of the root entity of
`json_build_object(*jsonFields)`. -/
structure DataBlock where
  rootEntity : String
  jsonFields : List SExpr
deriving Repr

/-- `JSONMapping.build_data(session, entity, fields, include)`
(lines 182-207): always the id/type fields, extended with attributes
and relationships exactly when `fields` is truthy and contains the
root's alias (`include` is unused by this method in the source). -/
def build_data (schema : Schema) (m : JSONMapping) (entity : EntityClass)
    (fields : Option Fields) (_include : Option (List String)) (k : Nat) :
    Except PyError (DataBlock × Nat) := do
  let model_alias ← inversedGet m entity.name
  let json_fields ← build_id_and_type m entity
  if fieldsTruthy fields && fieldsHas fields model_alias then do
    let (extra, k2) ← build_attrs_and_relationships schema m entity fields k
    Except.ok (⟨entity.name, json_fields ++ extra⟩, k2)
  else
    Except.ok (⟨entity.name, json_fields⟩, k)

/-- Resolve one segment after another, advancing the current type. -/
def resolveSegments (schema : Schema) :
    List String → String → Except PyError (List Relationship)
  | [], _ => Except.ok []
  | seg :: rest, cls =>
    match findClass schema cls with
    | none => Except.error (PyError.unknownRelationshipError seg cls)
    | some c =>
      match c.relationships.find? (fun r => r.key == seg) with
      | none => Except.error (PyError.unknownRelationshipError seg cls)
      | some r => (resolveSegments schema rest r.target).map (fun l => r :: l)

/-- Splitting a character list on `.`, accumulating the current
segment in reverse; Python `"".split('.')` is `['']`, so the empty
input still yields one (empty) segment. -/
def splitOnDotAux : List Char → List Char → List String
  | [], acc => [String.mk acc.reverse]
  | c :: rest, acc =>
    if c = '.' then String.mk acc.reverse :: splitOnDotAux rest []
    else splitOnDotAux rest (c :: acc)

/-- Python `path.split('.')`. -/
def splitOnDot (path : String) : List String :=
  splitOnDotAux path.data []

/-- Modelled from the spec: `path_to_relationships` is imported from
`sqlalchemy_utils.relationships`, which is not among the sources under
verification.  Spec section 4.2: "Splits `path` on `.`; for each
segment, looks up the relationship by name on the type reached so far
(starting at `rootType`), advancing the current type to the
relationship's target type.  Fails with `UnknownRelationshipError`
naming the offending segment and current type if a segment does not
match any declared relationship." -/
def path_to_relationships (schema : Schema) (path : String)
    (root : String) : Except PyError (List Relationship) :=
  resolveSegments schema (splitOnDot path) root

/-- Python truthiness of the optional `include` list. -/
def includeTruthy : Option (List String) → Bool
  | none => false
  | some l => !l.isEmpty

/-- The inner loop of `build_included` (lines 233-257): for each index
into the resolved relationship chain, build the id/type fields of the
hop's target class, append its attributes when the class alias passes
the membership test `cls_alias in fields` (a `TypeError` when `fields`
is `None`), and plan `select_aggregate` over
`reversed(relationships[0:index+1])`.  `revSoFar` is the reversed
already-consumed chain, so `rel :: revSoFar` is exactly that reversed
slice at the current index. -/
def buildEntriesGo (schema : Schema) (m : JSONMapping)
    (fields : Option Fields) (revSoFar : List Relationship) :
    List Relationship → Nat →
    Except PyError (List (AggQuery × SExpr) × Nat)
  | [], k => Except.ok ([], k)
  | rel :: rest, k => do
    let cls ←
      match findClass schema rel.target with
      | some c => Except.ok c
      | none => Except.error (PyError.keyError rel.target)
    let cls_alias ← inversedGet m cls.name
    let idType ← build_id_and_type m cls
    let inFields ← pyInOpt cls_alias fields
    let main_fields ←
      if inFields then do
        let attrs ← build_attributes m cls fields
        Except.ok (idType ++ [s "attributes", SExpr.jbo attrs])
      else
        Except.ok idType
    let (q, k2) ← select_aggregate schema (rel :: revSoFar) k
    let (restEntries, k3) ←
      buildEntriesGo schema m fields (rel :: revSoFar) rest k2
    Except.ok ((q, SExpr.jbo main_fields) :: restEntries, k3)

/-- The outer loop of `build_included` over the include paths
(lines 229-257), accumulating the per-prefix sub-queries of every path. -/
def buildPathsGo (schema : Schema) (m : JSONMapping) (entity : EntityClass)
    (fields : Option Fields) :
    List String → Nat → Except PyError (List (AggQuery × SExpr) × Nat)
  | [], k => Except.ok ([], k)
  | path :: rest, k => do
    let rels ← path_to_relationships schema path entity.name
    let (entries, k2) ← buildEntriesGo schema m fields [] rels k
    let (more, k3) ← buildPathsGo schema m entity fields rest k2
    Except.ok (entries ++ more, k3)

/-- `functools.reduce(lambda a, b: a.union(b), selects)` (lines
259-262): pairwise union of the collected sub-queries.  `reduce` over
an empty sequence with no initial value raises `TypeError`; on a
non-empty sequence the union keeps exactly the collected sub-queries. -/
def reduceUnion (selects : List (AggQuery × SExpr)) :
    Except PyError (List (AggQuery × SExpr)) :=
  match selects with
  | [] => Except.error PyError.typeError
  | _ => Except.ok selects

/-- `JSONMapping.build_included(session, entity, fields, include)`
(lines 224-269): `none` when `include` is falsy, otherwise the unioned
per-prefix sub-queries wrapped in the `included` array-aggregate. -/
def build_included (schema : Schema) (m : JSONMapping)
    (entity : EntityClass) (fields : Option Fields)
    (incl : Option (List String)) (k : Nat) :
    Except PyError (Option (List (AggQuery × SExpr)) × Nat) := do
  if includeTruthy incl then do
    let (selects, k2) ←
      buildPathsGo schema m entity fields (incl.getD []) k
    let union ← reduceUnion selects
    Except.ok (some union, k2)
  else
    Except.ok (none, k)

/-- The query returned by `select`: the root `data` block and the
optional `included` union. -/
structure Query where
  dataBlock : DataBlock
  included : Option (List (AggQuery × SExpr))
deriving Repr

/-- `JSONMapping.select(session, entity, fields, include)`
(lines 209-222): build the data block, then the included block, and
assemble the top-level `json_build_object` query (the debug `print` of
the compiled SQL is omitted as it does not affect the result). -/
def select (schema : Schema) (m : JSONMapping) (entity : EntityClass)
    (fields : Option Fields) (incl : Option (List String)) (k : Nat) :
    Except PyError (Query × Nat) := do
  let (dataB, k2) ← build_data schema m entity fields incl k
  let (included, k3) ← build_included schema m entity fields incl k2
  Except.ok (⟨dataB, included⟩, k3)

/-! ### Evaluation: PostgreSQL semantics of the produced expressions -/

/-- JSON values, the result type of executing the produced query. -/
inductive JValue where
  | null
  | num (n : Int)
  | str (v : String)
  | arr (xs : List JValue)
  | obj (fields : List (String × JValue))
deriving Repr

/-- Discriminator: is the value a JSON array? -/
def JValue.isArr : JValue → Bool
  | JValue.arr _ => true
  | _ => false

/-- Projection of a numeric JSON value. -/
def JValue.asNum : JValue → Option Int
  | JValue.num n => some n
  | _ => none

/-- One database row of some entity: column name to (nullable) value. -/
structure Row where
  cells : List (String × JValue)
deriving Repr

mutual

/-- Evaluate a flat SQL expression against one row: `s(v)` is the text
literal, a column reference is the cell value (SQL `NULL` when absent),
`json_build_object` pairs up its arguments; correlated sub-queries are
not evaluated row-locally (their evaluation is `evalRelData`). -/
def evalSExprRow (r : Row) : SExpr → JValue
  | SExpr.lit v => JValue.str v
  | SExpr.attr _ name => (alistLookup r.cells name).getD JValue.null
  | SExpr.jbo args => JValue.obj (evalPairs r args)
  | SExpr.scalarOne _ _ => JValue.null
  | SExpr.scalarAgg _ _ => JValue.null

/-- `json_build_object` consumes its argument list pairwise as
key/value; the keys produced by the source are always text literals. -/
def evalPairs (r : Row) : List SExpr → List (String × JValue)
  | SExpr.lit kname :: v :: rest => (kname, evalSExprRow r v) :: evalPairs r rest
  | _ :: _ :: rest => evalPairs r rest
  | _ => []

end

/-- PostgreSQL semantics of a scalar sub-query (`.as_scalar()`): zero
rows yield SQL `NULL`, one row yields its value, and more than one row
is the runtime error "more than one row returned by a subquery used as
an expression" (modelled as `none`). -/
def evalScalarSub (vals : List JValue) : Option JValue :=
  match vals with
  | [] => some JValue.null
  | [v] => some v
  | _ => none

/-- PostgreSQL evaluation of the `data` value a `build_relationships`
entry produces for one outer row, given the related rows matched by the
terminal join condition.  The aggregated form
(`array_agg(json_build_object(...))`) always returns exactly one row,
whose value is SQL `NULL` when the aggregate has no input rows (Postgres
`array_agg` over an empty input is `NULL`, never an empty array) and the
array of per-row objects otherwise.  The non-aggregated form returns one
row per related row and is consumed as a scalar sub-query. -/
def evalRelData (e : SExpr) (related : List Row) : Option JValue :=
  match e with
  | SExpr.scalarAgg _ inner =>
    some (if related.isEmpty then JValue.null
          else JValue.arr (related.map (fun r => evalSExprRow r inner)))
  | SExpr.scalarOne _ inner =>
    evalScalarSub (related.map (fun r => evalSExprRow r inner))
  | _ => none

/-- The value of the primary-key column of a class on a row. -/
def pkValue (cls : EntityClass) (r : Row) : Option JValue :=
  (cls.columns.find? (fun c => c.primary_key)).bind
    (fun c => alistLookup r.cells c.name)

/-! ### Structural observation helpers -/

/-- The keys of a flat `[s(key), value, ...]` list as produced by
`build_attributes`. -/
def litKeys : List SExpr → List String
  | SExpr.lit k :: _ :: rest => k :: litKeys rest
  | _ :: _ :: rest => litKeys rest
  | _ => []

/-- Look up, in a `build_relationships` output list, the sub-query
stored under `json_build_object(s('data'), -)` for a relationship key. -/
def dataExprOf : List SExpr → String → Option SExpr
  | SExpr.lit k :: SExpr.jbo [SExpr.lit d, x] :: rest, key =>
    if k == key && d == "data" then some x else dataExprOf rest key
  | _ :: rest, key => dataExprOf rest key
  | [], _ => none

/-- Erase the anonymous-alias identifiers of a join list. -/
def stripJoins (js : List (AliasedEntity × String)) :
    List (AliasedEntity × String) :=
  js.map (fun j => ((⟨j.1.cls, none⟩ : AliasedEntity), j.2))

/-- Erase the internal anonymous-alias identifiers of a join plan;
alias naming is internal to the SQL text and not observable in the
result document. -/
def stripAgg (q : AggQuery) : AggQuery :=
  { q with
    fromEntity := ⟨q.fromEntity.cls, none⟩,
    joins := stripJoins q.joins }

/-- Erase alias identifiers in an included-entry list. -/
def stripEntries (l : List (AggQuery × SExpr)) : List (AggQuery × SExpr) :=
  l.map (fun p => (stripAgg p.1, p.2))

/-- Erase alias identifiers everywhere in a produced query. -/
def stripQuery (q : Query) : Query :=
  { q with included := q.included.map stripEntries }

/-! ### Concrete fixture: the model classes of `tests/test_json_api.py` -/

/-- The `User` class of the test fixture (unmapped in the alias table). -/
def userCls : EntityClass :=
  ⟨"User",
   [⟨"id", true, false⟩, ⟨"name", false, false⟩],
   [⟨"authored_articles", "Article", true, none⟩,
    ⟨"owned_articles", "Article", true, none⟩,
    ⟨"comments", "Comment", true, none⟩]⟩

/-- The self-referencing `Category` class of the test fixture. -/
def categoryCls : EntityClass :=
  ⟨"Category",
   [⟨"id", true, false⟩, ⟨"name", false, false⟩,
    ⟨"created_at", false, false⟩, ⟨"parent_id", false, true⟩],
   [⟨"parent", "Category", false, none⟩,
    ⟨"subcategories", "Category", true, none⟩,
    ⟨"articles", "Article", true, none⟩]⟩

/-- The `Article` class of the test fixture. -/
def articleCls : EntityClass :=
  ⟨"Article",
   [⟨"id", true, false⟩, ⟨"name", false, false⟩,
    ⟨"content", false, false⟩, ⟨"category_id", false, true⟩,
    ⟨"author_id", false, true⟩, ⟨"owner_id", false, true⟩],
   [⟨"category", "Category", false, none⟩,
    ⟨"author", "User", false, none⟩,
    ⟨"owner", "User", false, none⟩,
    ⟨"comments", "Comment", true, none⟩]⟩

/-- The `Comment` class of the test fixture. -/
def commentCls : EntityClass :=
  ⟨"Comment",
   [⟨"id", true, false⟩, ⟨"content", false, false⟩,
    ⟨"article_id", false, true⟩, ⟨"author_id", false, true⟩],
   [⟨"article", "Article", false, none⟩,
    ⟨"author", "User", false, none⟩]⟩

/-- The fixture schema. -/
def artSchema : Schema := [userCls, categoryCls, articleCls, commentCls]

/-- The alias mapping constructed by the test fixture
(`User` deliberately has no alias, as in the tests). -/
def artMapping : JSONMapping :=
  ⟨[("articles", "Article"), ("categories", "Category"),
    ("comments", "Comment")]⟩

/-! ### Helper lemmas -/

@[simp] theorem exceptBind_ok {ε α β : Type} (a : α) (f : α → Except ε β) :
    (Except.ok a >>= f) = f a := rfl

@[simp] theorem exceptBind_err {ε α β : Type} (e : ε) (f : α → Except ε β) :
    ((Except.error e : Except ε α) >>= f) = (Except.error e : Except ε β) := rfl

@[simp] theorem exceptMap_ok {ε α β : Type} (g : α → β) (a : α) :
    (Except.ok a : Except ε α).map g = Except.ok (g a) := rfl

@[simp] theorem exceptMap_err {ε α β : Type} (g : α → β) (e : ε) :
    (Except.error e : Except ε α).map g = Except.error e := rfl

/-- Destructing an equality of mapped `Except` values. -/
theorem except_map_eq_cases {ε α β : Type} {g : α → β} {x y : Except ε α}
    (h : x.map g = y.map g) :
    (∃ e, x = Except.error e ∧ y = Except.error e) ∨
    (∃ a b, x = Except.ok a ∧ y = Except.ok b ∧ g a = g b) := by
  cases x with
  | error e =>
    cases y with
    | error e2 =>
      left
      simp [Except.map] at h
      exact ⟨e, rfl, by rw [h]⟩
    | ok b => simp [Except.map] at h
  | ok a =>
    cases y with
    | error e2 => simp [Except.map] at h
    | ok b =>
      right
      simp [Except.map] at h
      exact ⟨a, b, rfl, rfl, h⟩

theorem any_of_alistLookup {α : Type} {fs : List (String × α)} {k : String}
    {v : α} (h : alistLookup fs k = some v) :
    fs.any (fun p => p.1 == k) = true := by
  unfold alistLookup at h
  cases hfind : fs.find? (fun p => p.1 == k) with
  | none => rw [hfind] at h; simp at h
  | some p =>
    rw [List.any_eq_true]
    have hp := List.find?_some (p := fun q : String × α => q.1 == k) hfind
    exact ⟨p, List.mem_of_find?_eq_some hfind, hp⟩

theorem isEmpty_false_of_alistLookup {α : Type} {fs : List (String × α)}
    {k : String} {v : α} (h : alistLookup fs k = some v) :
    fs.isEmpty = false := by
  cases fs with
  | nil => simp [alistLookup] at h
  | cons p rest => rfl

theorem litKeys_flatMap (cs : List Column) (e : String) :
    litKeys (cs.flatMap (fun c => [s c.name, SExpr.attr e c.name])) =
      cs.map (fun c => c.name) := by
  induction cs with
  | nil => rfl
  | cons c rest ih => simpa [litKeys, s] using ih

/-- Closed form of `build_attributes` when the entity's alias is
registered: the filtered, flattened column list. -/
theorem build_attributes_ok (m : JSONMapping) (entity : EntityClass)
    (fields : Option Fields) (ename : String)
    (halias : alistLookup (inversed m) entity.name = some ename) :
    build_attributes m entity fields =
      Except.ok ((entity.columns.filter
          (fun c => !skip_field fields ename c.name c)).flatMap
        (fun c => [s c.name, SExpr.attr entity.name c.name])) := by
  simp [build_attributes, inversedGet, halias]

/-- The emitted attribute keys are the names of the non-skipped columns. -/
theorem mem_attrKeys (m : JSONMapping) (entity : EntityClass)
    (fields : Option Fields) (ename : String) (attrs : List SExpr)
    (halias : alistLookup (inversed m) entity.name = some ename)
    (hok : build_attributes m entity fields = Except.ok attrs)
    (kname : String) :
    kname ∈ litKeys attrs ↔
      ∃ c ∈ entity.columns, c.name = kname ∧
        skip_field fields ename c.name c = false := by
  rw [build_attributes_ok m entity fields ename halias] at hok
  cases hok
  rw [litKeys_flatMap]
  simp only [List.mem_map, List.mem_filter, Bool.not_eq_true']
  constructor
  · rintro ⟨c, ⟨hc, hskip⟩, hn⟩
    exact ⟨c, hc, hn, hskip⟩
  · rintro ⟨c, hc, hn, hskip⟩
    exact ⟨c, ⟨hc, hskip⟩, hn⟩

/-- When the entity's alias is a key of the fields dict with list `F`,
`skip_field` keeps exactly the non-key, non-foreign-key columns whose
key is listed in `F`. -/
theorem skip_field_false_iff (fs : Fields) (F : List String) (ename : String)
    (key : String) (c : Column)
    (hF : alistLookup fs ename = some F) :
    skip_field (some fs) ename key c = false ↔
      (c.primary_key = false ∧ has_foreign_key c = false ∧ key ∈ F) := by
  have htruthy : fieldsTruthy (some fs) = true := by
    simp [fieldsTruthy, isEmpty_false_of_alistLookup hF]
  have hhas : fieldsHas (some fs) ename = true := by
    simpa [fieldsHas] using any_of_alistLookup hF
  simp [skip_field, htruthy, hhas, hF, and_assoc]

/-! ### Claim C4 -/

/-- C4: for every entity type whose alias is present in the fields
mapping with an explicit field list `F`, the keys of the emitted
attributes object are exactly the intersection of `F` with the
non-primary-key, non-foreign-key columns of the type; no key outside
that intersection ever appears. -/
theorem C4_selection_narrowing (m : JSONMapping) (entity : EntityClass)
    (fs : Fields) (ename : String) (F : List String) (attrs : List SExpr)
    (halias : alistLookup (inversed m) entity.name = some ename)
    (hF : alistLookup fs ename = some F)
    (hok : build_attributes m entity (some fs) = Except.ok attrs)
    (kname : String) :
    kname ∈ litKeys attrs ↔
      (kname ∈ F ∧ ∃ c ∈ entity.columns,
        c.name = kname ∧ c.primary_key = false ∧ has_foreign_key c = false) := by
  rw [mem_attrKeys m entity (some fs) ename attrs halias hok kname]
  constructor
  · rintro ⟨c, hc, hn, hskip⟩
    rw [skip_field_false_iff fs F ename c.name c hF] at hskip
    exact ⟨hn ▸ hskip.2.2, c, hc, hn, hskip.1, hskip.2.1⟩
  · rintro ⟨hmem, c, hc, hn, hpk, hfk⟩
    refine ⟨c, hc, hn, ?_⟩
    rw [skip_field_false_iff fs F ename c.name c hF]
    exact ⟨hpk, hfk, hn ▸ hmem⟩

/-- Fields dict used by the C4 witness (a fixture scenario). -/
def c4fields : Fields := [("articles", ["name", "content", "category"])]

/-- Attribute list `build_attributes` emits for the C4 witness. -/
def c4attrs : List SExpr :=
  [s "name", SExpr.attr "Article" "name",
   s "content", SExpr.attr "Article" "content"]

/-- C4 witness: the theorem applied to the fixture `Article` class with
fields `{'articles': ['name', 'content', 'category']}` at key `name`. -/
theorem C4_witness :
    alistLookup (inversed artMapping) articleCls.name = some "articles" ∧
    alistLookup c4fields "articles" = some ["name", "content", "category"] ∧
    build_attributes artMapping articleCls (some c4fields) =
      Except.ok c4attrs ∧
    ("name" ∈ litKeys c4attrs ↔
      ("name" ∈ ["name", "content", "category"] ∧
        ∃ c ∈ articleCls.columns, c.name = "name" ∧
          c.primary_key = false ∧ has_foreign_key c = false)) :=
  ⟨rfl, rfl, rfl,
   C4_selection_narrowing artMapping articleCls c4fields "articles"
     ["name", "content", "category"] c4attrs rfl rfl rfl "name"⟩

/-! ### Claim C5 -/

/-- A class whose primary key is named `code` and which also carries a
non-key column named `id`; used to separate "primary-key value" from
"attribute named id". -/
def widgetCls : EntityClass :=
  ⟨"Widget",
   [⟨"code", true, false⟩, ⟨"id", false, false⟩],
   []⟩

/-- Alias registry for the widget fixture. -/
def widgetMapping : JSONMapping := ⟨[("widgets", "Widget")]⟩

/-- A widget row whose primary key `code` is 5 while its `id` column is 7. -/
def widgetRow : Row := ⟨[("code", JValue.num 5), ("id", JValue.num 7)]⟩

/-- C5 counterexample: on a registered type whose primary-key column is
not named `id`, `build_id_and_type` emits the value of the column named
`id` (7), not the primary-key value (5), because the source reads
`model.id` instead of consulting the primary-key metadata.  This
refutes the claim that the `id` value is the primary-key column value
"including when the primary-key column is not named 'id'". -/
theorem C5_counterexample :
    (build_id_and_type widgetMapping widgetCls).map
        (fun l => l.map (evalSExprRow widgetRow)) =
      Except.ok [JValue.str "id", JValue.num 7,
                 JValue.str "type", JValue.str "widgets"] ∧
    pkValue widgetCls widgetRow = some (JValue.num 5) ∧
    (JValue.num 7).asNum ≠ (JValue.num 5).asNum :=
  ⟨rfl, rfl, by simp [JValue.asNum]⟩

/-- C5 (amended): for every registered entity type, `build_id_and_type`
returns exactly the registered alias as the `type` value and the value
of the attribute named `id` as the `id` value (which coincides with the
primary key only when the primary-key column is named `id`); the result
is independent of any field selection since the function takes none. -/
theorem C5_id_and_type_amended (m : JSONMapping) (model : EntityClass)
    (a : String)
    (halias : alistLookup (inversed m) model.name = some a)
    (hid : model.columns.any (fun c => c.name == "id") = true) :
    build_id_and_type m model =
      Except.ok [s "id", SExpr.attr model.name "id", s "type", s a] := by
  simp [build_id_and_type, inversedGet, halias, hid]

/-- C5 witness: the amended theorem applied to the fixture `Category`
class. -/
theorem C5_witness :
    alistLookup (inversed artMapping) categoryCls.name = some "categories" ∧
    categoryCls.columns.any (fun c => c.name == "id") = true ∧
    build_id_and_type artMapping categoryCls =
      Except.ok [s "id", SExpr.attr "Category" "id",
                 s "type", s "categories"] :=
  ⟨rfl, rfl, C5_id_and_type_amended artMapping categoryCls "categories" rfl rfl⟩

/-! ### Claim C7 -/

/-- C7 counterexample: with `fields={'articles': ['name', 'bogus']}`
against the fixture `Article` class, `build_attributes` emits exactly
the key `name`; the selected non-column name `bogus` is not emitted at
all — in particular it is not emitted with a null value, refuting the
claim that selected non-column names appear as null-valued attributes. -/
theorem C7_counterexample :
    (build_attributes artMapping articleCls
        (some [("articles", ["name", "bogus"])])).map litKeys =
      Except.ok ["name"] ∧
    "bogus" ∉ (["name"] : List String) :=
  ⟨rfl, by decide⟩

/-- C7 (amended): a selected attribute name that is not a column of the
target type is silently dropped: `build_attributes` succeeds and its
emitted keys never include the name — it is neither rejected with an
error nor emitted with a null value. -/
theorem C7_unknown_attribute_omitted_amended (m : JSONMapping)
    (entity : EntityClass) (fields : Option Fields) (ename : String)
    (bogey : String)
    (halias : alistLookup (inversed m) entity.name = some ename)
    (hcol : ∀ c ∈ entity.columns, c.name ≠ bogey) :
    ∃ attrs, build_attributes m entity fields = Except.ok attrs ∧
      bogey ∉ litKeys attrs := by
  refine ⟨_, build_attributes_ok m entity fields ename halias, ?_⟩
  intro hmem
  rw [mem_attrKeys m entity fields ename _ halias
    (build_attributes_ok m entity fields ename halias) bogey] at hmem
  obtain ⟨c, hc, hn, -⟩ := hmem
  exact hcol c hc hn

/-- C7 witness: the amended theorem applied to the fixture `Article`
class and the selected non-column name `bogus`. -/
theorem C7_witness :
    alistLookup (inversed artMapping) articleCls.name = some "articles" ∧
    (∀ c ∈ articleCls.columns, c.name ≠ "bogus") ∧
    (∃ attrs, build_attributes artMapping articleCls
        (some [("articles", ["name", "bogus"])]) = Except.ok attrs ∧
      "bogus" ∉ litKeys attrs) :=
  ⟨rfl, by decide,
   C7_unknown_attribute_omitted_amended artMapping articleCls
     (some [("articles", ["name", "bogus"])]) "articles" "bogus"
     rfl (by decide)⟩

/-! ### Structure of `build_relationships` output -/

/-- The keys emitted by the relationship loop are exactly the keys of
the selected relationships, in order. -/
theorem buildRelLoop_litKeys (schema : Schema) (m : JSONMapping) :
    ∀ (rels : List Relationship) (k : Nat) (entries : List SExpr) (k2 : Nat),
      buildRelLoop schema m rels k = Except.ok (entries, k2) →
      litKeys entries = rels.map (fun r => r.key) := by
  intro rels
  induction rels with
  | nil =>
    intro k entries k2 h
    simp only [buildRelLoop, Except.ok.injEq, Prod.mk.injEq] at h
    rw [← h.1]
    rfl
  | cons rel rest ih =>
    intro k entries k2 h
    simp only [buildRelLoop] at h
    cases hfc : findClass schema rel.target with
    | none => rw [hfc] at h; simp at h
    | some tc =>
      rw [hfc] at h
      simp only [exceptBind_ok] at h
      cases hit : build_id_and_type m tc with
      | error e => rw [hit] at h; simp at h
      | ok attrs =>
        rw [hit] at h
        simp only [exceptBind_ok] at h
        cases hsa : select_aggregate schema [rel] k with
        | error e => rw [hsa] at h; simp at h
        | ok qk =>
          obtain ⟨q, kq⟩ := qk
          rw [hsa] at h
          simp only [exceptBind_ok] at h
          cases hrest : buildRelLoop schema m rest kq with
          | error e => rw [hrest] at h; simp at h
          | ok rk =>
            obtain ⟨restEntries, k3⟩ := rk
            rw [hrest] at h
            simp only [exceptBind_ok, Except.ok.injEq, Prod.mk.injEq] at h
            rw [← h.1]
            simpa [litKeys, s] using ih kq restEntries k3 hrest

/-- Every `data` sub-query found in the relationship loop's output
belongs to one of the selected relationships, and its shape follows
that relationship's cardinality: `array_agg`-wrapped scalar sub-query
for `uselist`, plain scalar sub-query otherwise, in both cases
selecting a `json_build_object`. -/
theorem buildRelLoop_dataExprOf (schema : Schema) (m : JSONMapping) :
    ∀ (rels : List Relationship) (k : Nat) (entries : List SExpr) (k2 : Nat),
      buildRelLoop schema m rels k = Except.ok (entries, k2) →
      ∀ (key : String) (X : SExpr), dataExprOf entries key = some X →
        ∃ rel ∈ rels, rel.key = key ∧ ∃ q attrs,
          X = if rel.uselist then SExpr.scalarAgg q (SExpr.jbo attrs)
              else SExpr.scalarOne q (SExpr.jbo attrs) := by
  intro rels
  induction rels with
  | nil =>
    intro k entries k2 h key X hX
    simp only [buildRelLoop, Except.ok.injEq, Prod.mk.injEq] at h
    rw [← h.1] at hX
    simp [dataExprOf] at hX
  | cons rel rest ih =>
    intro k entries k2 h key X hX
    simp only [buildRelLoop] at h
    cases hfc : findClass schema rel.target with
    | none => rw [hfc] at h; simp at h
    | some tc =>
      rw [hfc] at h
      simp only [exceptBind_ok] at h
      cases hit : build_id_and_type m tc with
      | error e => rw [hit] at h; simp at h
      | ok attrs =>
        rw [hit] at h
        simp only [exceptBind_ok] at h
        cases hsa : select_aggregate schema [rel] k with
        | error e => rw [hsa] at h; simp at h
        | ok qk =>
          obtain ⟨q, kq⟩ := qk
          rw [hsa] at h
          simp only [exceptBind_ok] at h
          cases hrest : buildRelLoop schema m rest kq with
          | error e => rw [hrest] at h; simp at h
          | ok rk =>
            obtain ⟨restEntries, k3⟩ := rk
            rw [hrest] at h
            simp only [exceptBind_ok, Except.ok.injEq, Prod.mk.injEq] at h
            rw [← h.1] at hX
            by_cases hkey : rel.key = key
            · simp only [dataExprOf, s, hkey] at hX
              rw [if_pos (by simp)] at hX
              refine ⟨rel, List.mem_cons_self rel rest, hkey, q, attrs, ?_⟩
              cases hul : rel.uselist with
              | true => simpa [hul] using hX.symm
              | false => simpa [hul] using hX.symm
            · simp only [dataExprOf, s] at hX
              rw [if_neg (by simp [hkey])] at hX
              obtain ⟨rel2, hmem, hk2, hshape⟩ :=
                ih kq restEntries k3 hrest key X hX
              exact ⟨rel2, List.mem_cons_of_mem rel hmem, hk2, hshape⟩

/-- Eliminating a successful `build_relationships` run into its parts. -/
theorem build_relationships_ok_elim (schema : Schema) (m : JSONMapping)
    (entity : EntityClass) (fields : Option Fields) (k : Nat)
    (entries : List SExpr) (k2 : Nat)
    (h : build_relationships schema m entity fields k = Except.ok (entries, k2)) :
    ∃ ename flist, alistLookup (inversed m) entity.name = some ename ∧
      pySubscript fields ename = Except.ok flist ∧
      buildRelLoop schema m
        (flist.filterMap
          (fun f => entity.relationships.find? (fun r => r.key == f))) k =
        Except.ok (entries, k2) := by
  simp only [build_relationships, inversedGet] at h
  cases ha : alistLookup (inversed m) entity.name with
  | none => rw [ha] at h; simp at h
  | some ename =>
    rw [ha] at h
    simp only [exceptBind_ok] at h
    cases hsub : pySubscript fields ename with
    | error e => rw [hsub] at h; simp at h
    | ok flist =>
      rw [hsub] at h
      simp only [exceptBind_ok] at h
      exact ⟨ename, flist, rfl, hsub, h⟩

/-! ### Claim C6 -/

/-- C6 counterexample: with `fields={'articles': ['bogus']}` — a name
that is neither a column nor a relationship of `Article` — the build
completes normally and returns the bare id/type document; no
`UnknownRelationshipError` (nor any other error) is raised, refuting
the claim. -/
theorem C6_counterexample :
    select artSchema artMapping articleCls
        (some [("articles", ["bogus"])]) none 0 =
      Except.ok
        (⟨⟨"Article", [s "id", SExpr.attr "Article" "id",
                       s "type", s "articles"]⟩, none⟩, 0) := rfl

/-- C6 (amended): a selected name that is neither a column nor a
declared relationship of the resolved type is silently dropped: it
never appears among the emitted attribute keys, and never appears among
the emitted relationship keys, and no error is raised on its account. -/
theorem C6_unknown_name_silently_dropped_amended (schema : Schema)
    (m : JSONMapping) (entity : EntityClass) (fields : Option Fields)
    (ename : String) (bogey : String)
    (halias : alistLookup (inversed m) entity.name = some ename)
    (hcol : ∀ c ∈ entity.columns, c.name ≠ bogey)
    (hrel : ∀ r ∈ entity.relationships, r.key ≠ bogey) :
    (∃ attrs, build_attributes m entity fields = Except.ok attrs ∧
      bogey ∉ litKeys attrs) ∧
    (∀ k entries k2,
      build_relationships schema m entity fields k = Except.ok (entries, k2) →
      bogey ∉ litKeys entries) := by
  constructor
  · refine ⟨_, build_attributes_ok m entity fields ename halias, ?_⟩
    intro hmem
    rw [mem_attrKeys m entity fields ename _ halias
      (build_attributes_ok m entity fields ename halias) bogey] at hmem
    obtain ⟨c, hc, hn, -⟩ := hmem
    exact hcol c hc hn
  · intro k entries k2 h hmem
    obtain ⟨en2, flist, -, -, hloop⟩ :=
      build_relationships_ok_elim schema m entity fields k entries k2 h
    rw [buildRelLoop_litKeys schema m _ k entries k2 hloop] at hmem
    rw [List.mem_map] at hmem
    obtain ⟨rel, hrelmem, hkey⟩ := hmem
    rw [List.mem_filterMap] at hrelmem
    obtain ⟨f, -, hfind⟩ := hrelmem
    exact hrel rel (List.mem_of_find?_eq_some hfind) hkey

/-- C6 witness: the amended theorem applied to the fixture `Article`
class and the unknown selected name `bogus`. -/
theorem C6_witness :
    alistLookup (inversed artMapping) articleCls.name = some "articles" ∧
    (∀ c ∈ articleCls.columns, c.name ≠ "bogus") ∧
    (∀ r ∈ articleCls.relationships, r.key ≠ "bogus") ∧
    ((∃ attrs, build_attributes artMapping articleCls
        (some [("articles", ["bogus"])]) = Except.ok attrs ∧
        "bogus" ∉ litKeys attrs) ∧
     (∀ k entries k2,
        build_relationships artSchema artMapping articleCls
          (some [("articles", ["bogus"])]) k = Except.ok (entries, k2) →
        "bogus" ∉ litKeys entries)) :=
  ⟨rfl, by decide, by decide,
   C6_unknown_name_silently_dropped_amended artSchema artMapping articleCls
     (some [("articles", ["bogus"])]) "articles" "bogus"
     rfl (by decide) (by decide)⟩

/-! ### Claim C2 -/

/-- C2 counterexample: with `fields={'bogus': ['x']}` — an alias never
registered in the mapping — the build completes normally and returns
the bare id/type document for the root; no `UnknownAliasError` is
raised at build time (indeed the source defines no such error class),
refuting the claim. -/
theorem C2_counterexample :
    select artSchema artMapping articleCls
        (some [("bogus", ["x"])]) none 0 =
      Except.ok
        (⟨⟨"Article", [s "id", SExpr.attr "Article" "id",
                       s "type", s "articles"]⟩, none⟩, 0) := rfl

/-- C2 (amended): an alias key of the fields mapping that does not
match the root's registered alias is silently ignored: when the root
type is registered, has an `id` column, and no include paths are given,
the build succeeds and emits only the root's id/type fields. -/
theorem C2_unknown_alias_ignored_amended (schema : Schema)
    (m : JSONMapping) (entity : EntityClass) (fs : Fields) (a : String)
    (k : Nat)
    (halias : alistLookup (inversed m) entity.name = some a)
    (hid : entity.columns.any (fun c => c.name == "id") = true)
    (hnotin : ∀ p ∈ fs, p.1 ≠ a) :
    select schema m entity (some fs) none k =
      Except.ok
        (⟨⟨entity.name, [s "id", SExpr.attr entity.name "id",
                         s "type", s a]⟩, none⟩, k) := by
  have hhas : fieldsHas (some fs) a = false := by
    simp only [fieldsHas, List.any_eq_false]
    intro p hp
    simpa using hnotin p hp
  simp [select, build_data, build_included, includeTruthy,
    build_id_and_type, inversedGet, halias, hid, hhas]

/-- C2 witness: the amended theorem applied to the fixture `Article`
class with `fields={'bogus': ['x']}`. -/
theorem C2_witness :
    alistLookup (inversed artMapping) articleCls.name = some "articles" ∧
    articleCls.columns.any (fun c => c.name == "id") = true ∧
    (∀ p ∈ ([("bogus", ["x"])] : Fields), p.1 ≠ "articles") ∧
    select artSchema artMapping articleCls (some [("bogus", ["x"])]) none 5 =
      Except.ok
        (⟨⟨"Article", [s "id", SExpr.attr "Article" "id",
                       s "type", s "articles"]⟩, none⟩, 5) :=
  ⟨rfl, rfl, by decide,
   C2_unknown_alias_ignored_amended artSchema artMapping articleCls
     [("bogus", ["x"])] "articles" 5 rfl rfl (by decide)⟩

/-! ### Claim C8 -/

/-- C8 counterexample: an include list whose only path is unresolvable
(`include=['bogus']`) fails with `UnknownRelationshipError` from path
resolution — not with `EmptyIncludeSetError` as the claim requires
(the source defines no such error; its union step would raise a bare
`TypeError` on an empty sequence). -/
theorem C8_counterexample :
    build_included artSchema artMapping articleCls
        (some [("articles", ["name"])]) (some ["bogus"]) 0 =
      Except.error (PyError.unknownRelationshipError "bogus" "Article") ∧
    PyError.unknownRelationshipError "bogus" "Article" ≠
      PyError.emptyIncludeSetError :=
  ⟨rfl, by decide⟩

/-- C8 (amended): an include list with zero resolvable paths never
reaches the union with a clear error: the first unresolvable path
aborts the build with the path resolver's `UnknownRelationshipError`
(spec-modelled; the in-repo behavior is the resolver's own exception),
and the union step itself, applied to an empty sub-query sequence, is
`functools.reduce` over an empty sequence, which raises a bare
`TypeError` — the source defines no `EmptyIncludeSetError`. -/
theorem C8_empty_include_union_amended (schema : Schema) (m : JSONMapping)
    (entity : EntityClass) (fields : Option Fields) (p : String)
    (rest : List String) (k : Nat) (e : PyError)
    (hres : path_to_relationships schema p entity.name = Except.error e) :
    build_included schema m entity fields (some (p :: rest)) k =
      Except.error e ∧
    reduceUnion [] = Except.error PyError.typeError := by
  refine ⟨?_, rfl⟩
  simp [build_included, includeTruthy, buildPathsGo, hres]

/-- C8 witness: the amended theorem applied to the fixture `Category`
root with the unresolvable include path `bogus`. -/
theorem C8_witness :
    path_to_relationships artSchema "bogus" categoryCls.name =
      Except.error (PyError.unknownRelationshipError "bogus" "Category") ∧
    (build_included artSchema artMapping categoryCls none
        (some ["bogus"]) 0 =
      Except.error (PyError.unknownRelationshipError "bogus" "Category") ∧
     reduceUnion [] = Except.error PyError.typeError) :=
  ⟨rfl,
   C8_empty_include_union_amended artSchema artMapping categoryCls none
     "bogus" [] 0 (PyError.unknownRelationshipError "bogus" "Category") rfl⟩

/-! ### Claim C10 -/

/-- C10: for every `select` call with a non-empty include list whose
first path resolves (and whose first hop's registered target class has
an `id` column, so that construction reaches the membership test) and
with `fields` absent (`None`), query construction does not complete:
`build_included` evaluates `cls_alias in fields` against `None`, which
raises `TypeError`. -/
theorem C10_include_without_fields_type_error (schema : Schema)
    (m : JSONMapping) (entity : EntityClass) (p : String)
    (rest : List String) (k : Nat) (r : Relationship)
    (rs : List Relationship) (tc : EntityClass) (a ta : String)
    (ha : alistLookup (inversed m) entity.name = some a)
    (hid : entity.columns.any (fun c => c.name == "id") = true)
    (hres : path_to_relationships schema p entity.name = Except.ok (r :: rs))
    (htc : findClass schema r.target = some tc)
    (hta : alistLookup (inversed m) tc.name = some ta)
    (htid : tc.columns.any (fun c => c.name == "id") = true) :
    select schema m entity none (some (p :: rest)) k =
      Except.error PyError.typeError := by
  have hid2 : ∃ x ∈ entity.columns, x.name = "id" := by simpa using hid
  have htid2 : ∃ x ∈ tc.columns, x.name = "id" := by simpa using htid
  simp [select, build_data, build_included, includeTruthy, buildPathsGo,
    buildEntriesGo, build_id_and_type, inversedGet, pyInOpt, fieldsTruthy,
    ha, hid2, hres, htc, hta, htid2]

/-- C10 witness: the fixture `Article` root with `include=['category']`
and `fields=None` aborts with `TypeError`. -/
theorem C10_witness :
    alistLookup (inversed artMapping) articleCls.name = some "articles" ∧
    articleCls.columns.any (fun c => c.name == "id") = true ∧
    path_to_relationships artSchema "category" articleCls.name =
      Except.ok [⟨"category", "Category", false, none⟩] ∧
    findClass artSchema "Category" = some categoryCls ∧
    alistLookup (inversed artMapping) categoryCls.name = some "categories" ∧
    categoryCls.columns.any (fun c => c.name == "id") = true ∧
    select artSchema artMapping articleCls none (some ["category"]) 0 =
      Except.error PyError.typeError :=
  ⟨rfl, rfl, rfl, rfl, rfl, rfl,
   C10_include_without_fields_type_error artSchema artMapping articleCls
     "category" [] 0 ⟨"category", "Category", false, none⟩ [] categoryCls
     "articles" "categories" rfl rfl rfl rfl rfl rfl⟩

/-! ### Claim C1 -/

/-- The self-referencing to-many relationship of the fixture. -/
def subcategoriesRel : Relationship := ⟨"subcategories", "Category", true, none⟩

/-- The `data` sub-query `build_relationships` produces for the
fixture's `subcategories` relationship: an `array_agg`-wrapped
correlated scalar sub-query of the target's id/type object. -/
def c1X : SExpr :=
  SExpr.scalarAgg ⟨⟨"Category", none⟩, [], none, subcategoriesRel⟩
    (SExpr.jbo [s "id", SExpr.attr "Category" "id", s "type", s "categories"])

/-- The full `build_relationships` output for the fixture `Category`
with `fields={'categories': ['name', 'subcategories']}`. -/
def c1entries : List SExpr := [s "subcategories", SExpr.jbo [s "data", c1X]]

/-- C1 counterexample: `subcategories` is a to-many relationship, yet
for an outer row with zero related rows the value produced under its
`data` key evaluates to SQL `NULL` (Postgres `array_agg` over an empty
input inside a scalar sub-query), not to an empty list — refuting the
claim that a to-many relationship with zero related rows yields an
empty list, never null. -/
theorem C1_counterexample :
    build_relationships artSchema artMapping categoryCls
        (some [("categories", ["name", "subcategories"])]) 0 =
      Except.ok (c1entries, 0) ∧
    dataExprOf c1entries "subcategories" = some c1X ∧
    evalRelData c1X [] = some JValue.null ∧
    JValue.null.isArr = false :=
  ⟨rfl, rfl, rfl, rfl⟩

/-- C1 (amended): every selected relationship's `data` sub-query is
keyed by a declared relationship of the entity and follows its
cardinality — a to-many (`uselist`) relationship yields an array of
id/type objects when at least one related row exists and SQL `NULL`
when no related row exists (never an empty list); a to-one relationship
yields SQL `NULL` for zero related rows and a single id/type object for
exactly one related row. -/
theorem C1_relationship_cardinality_amended (schema : Schema)
    (m : JSONMapping) (entity : EntityClass) (fields : Option Fields)
    (k : Nat) (entries : List SExpr) (k2 : Nat)
    (hok : build_relationships schema m entity fields k =
      Except.ok (entries, k2))
    (key : String) (X : SExpr) (hX : dataExprOf entries key = some X)
    (related : List Row) :
    ∃ rel ∈ entity.relationships, rel.key = key ∧
      ((rel.uselist = true →
         (related = [] → evalRelData X related = some JValue.null) ∧
         (related ≠ [] →
           ∃ xs, evalRelData X related = some (JValue.arr xs))) ∧
       (rel.uselist = false →
         (related = [] → evalRelData X related = some JValue.null) ∧
         (∀ r0, related = [r0] →
           ∃ flds, evalRelData X related = some (JValue.obj flds)))) := by
  obtain ⟨ename, flist, -, -, hloop⟩ :=
    build_relationships_ok_elim schema m entity fields k entries k2 hok
  obtain ⟨rel, hmem, hkey, q, attrs, hshape⟩ :=
    buildRelLoop_dataExprOf schema m _ k entries k2 hloop key X hX
  have hmem2 : rel ∈ entity.relationships := by
    rw [List.mem_filterMap] at hmem
    obtain ⟨f, -, hfind⟩ := hmem
    exact List.mem_of_find?_eq_some hfind
  refine ⟨rel, hmem2, hkey, ?_, ?_⟩
  · intro hul
    rw [hul, if_pos rfl] at hshape
    subst hshape
    constructor
    · intro hrel
      subst hrel
      simp [evalRelData]
    · intro hne
      cases related with
      | nil => exact absurd rfl hne
      | cons r0 rs =>
        exact ⟨(r0 :: rs).map (fun r => evalSExprRow r (SExpr.jbo attrs)),
          by simp [evalRelData]⟩
  · intro hul
    rw [hul] at hshape
    simp only [Bool.false_eq_true, if_false] at hshape
    subst hshape
    constructor
    · intro hrel
      subst hrel
      simp [evalRelData, evalScalarSub]
    · intro r0 hrel
      subst hrel
      exact ⟨evalPairs r0 attrs, by simp [evalRelData, evalScalarSub, evalSExprRow]⟩

/-- C1 witness: the amended theorem applied to the fixture `Category`
with the selected to-many relationship `subcategories` and zero related
rows. -/
theorem C1_witness :
    build_relationships artSchema artMapping categoryCls
        (some [("categories", ["name", "subcategories"])]) 0 =
      Except.ok (c1entries, 0) ∧
    dataExprOf c1entries "subcategories" = some c1X ∧
    (∃ rel ∈ categoryCls.relationships, rel.key = "subcategories" ∧
      ((rel.uselist = true →
         (([] : List Row) = [] → evalRelData c1X [] = some JValue.null) ∧
         (([] : List Row) ≠ [] →
           ∃ xs, evalRelData c1X [] = some (JValue.arr xs))) ∧
       (rel.uselist = false →
         (([] : List Row) = [] → evalRelData c1X [] = some JValue.null) ∧
         (∀ r0, ([] : List Row) = [r0] →
           ∃ flds, evalRelData c1X [] = some (JValue.obj flds))))) :=
  ⟨rfl, rfl,
   C1_relationship_cardinality_amended artSchema artMapping categoryCls
     (some [("categories", ["name", "subcategories"])]) 0 c1entries 0 rfl
     "subcategories" c1X rfl []⟩

/-! ### Claim C3 -/

/-- The middle-join loop assigns consecutive fresh alias identifiers
`k, k+1, ...` to its join targets, one per hop. -/
theorem joinMiddle_uids (schema : Schema) :
    ∀ (mid : List Relationship) (cls : String) (k : Nat)
      (js : List (AliasedEntity × String)) (cls2 : String) (k2 : Nat),
      joinMiddle schema mid cls k = Except.ok (js, cls2, k2) →
      js.map (fun j => j.1.uid) = (List.range' k js.length).map some ∧
      k2 = k + js.length ∧ js.length = mid.length := by
  intro mid
  induction mid with
  | nil =>
    intro cls k js cls2 k2 h
    simp only [joinMiddle, Except.ok.injEq, Prod.mk.injEq] at h
    obtain ⟨h1, -, h3⟩ := h
    subst h1
    subst h3
    simp
  | cons rel rest ih =>
    intro cls k js cls2 k2 h
    simp only [joinMiddle] at h
    cases hg : getattrRel schema cls rel.key with
    | error e => rw [hg] at h; simp at h
    | ok r =>
      rw [hg] at h
      simp only [exceptBind_ok] at h
      cases hrec : joinMiddle schema rest rel.target (k + 1) with
      | error e => rw [hrec] at h; simp at h
      | ok t =>
        obtain ⟨js', cls2', k2'⟩ := t
        rw [hrec] at h
        simp only [exceptBind_ok, Except.ok.injEq, Prod.mk.injEq] at h
        obtain ⟨h1, -, h3⟩ := h
        obtain ⟨huid, hk, hlen⟩ := ih rel.target (k + 1) js' cls2' k2' hrec
        subst h1
        subst h3
        refine ⟨?_, ?_, ?_⟩
        · simp only [List.map_cons, List.length_cons, huid]
          rw [List.range'_succ]
          simp
        · simpa [hk] using by omega
        · simpa using hlen

/-- C3: in every aggregate join plan for a chain of length greater
than one, the FROM entity and every joined entity except the last
carry fresh anonymous aliases with pairwise distinct identifiers
(consecutive from the counter), while the final join target is the
plain, unaliased class; consequently the participating entities are
pairwise distinct even when the same class occurs at several hops. -/
theorem C3_fresh_alias_per_hop (schema : Schema) (chain : List Relationship)
    (k : Nat) (q : AggQuery) (k2 : Nat)
    (hlen : 1 < chain.length)
    (hok : select_aggregate schema chain k = Except.ok (q, k2)) :
    ∃ js lastJ, q.joins = js ++ [lastJ] ∧
      lastJ.1.uid = none ∧
      (q.fromEntity.uid :: js.map (fun j => j.1.uid)) =
        (List.range' k (js.length + 1)).map some ∧
      (q.fromEntity :: js.map Prod.fst).Nodup := by
  cases chain with
  | nil => simp at hlen
  | cons r0 rest =>
    simp only [select_aggregate] at hok
    rw [if_pos hlen] at hok
    cases hjm : joinMiddle schema ((r0 :: rest).dropLast.dropLast)
        r0.target (k + 1) with
    | error e => rw [hjm] at hok; simp at hok
    | ok t =>
      obtain ⟨js, cls2, kj⟩ := t
      rw [hjm] at hok
      dsimp only at hok
      cases hga : getattrRel schema cls2 (rest.dropLast.getLastD r0).key with
      | error e => rw [hga] at hok; simp at hok
      | ok r2 =>
        rw [hga] at hok
        simp only [Except.ok.injEq, Prod.mk.injEq] at hok
        obtain ⟨hq, -⟩ := hok
        subst hq
        obtain ⟨huid, -, -⟩ :=
          joinMiddle_uids schema _ r0.target (k + 1) js cls2 kj hjm
        refine ⟨js, (⟨r2.target, none⟩, (rest.dropLast.getLastD r0).key),
          rfl, rfl, ?_, ?_⟩
        · simp only [List.map_cons, huid]
          rw [List.range'_succ]
          simp
        · have hmapped :
              ((⟨⟨r0.target, some k⟩, js.map Prod.fst⟩ :
                  AliasedEntity × List AliasedEntity).1 ::
                js.map Prod.fst).map (fun a => a.uid) =
                (List.range' k (js.length + 1)).map some := by
            simp only [List.map_cons, List.map_map]
            have hcomp : List.map ((fun (a : AliasedEntity) => a.uid) ∘ Prod.fst) js =
                List.map (fun j : AliasedEntity × String => j.1.uid) js := by
              simp [Function.comp]
            rw [hcomp, huid, List.range'_succ]
            simp
          have hnodup :
              ((⟨⟨r0.target, some k⟩, js.map Prod.fst⟩ :
                  AliasedEntity × List AliasedEntity).1 ::
                js.map Prod.fst).map (fun a => a.uid) |>.Nodup := by
            rw [hmapped]
            exact (List.nodup_range' _ _).map
              (fun a b h => Option.some.injEq a b ▸ h)
          exact hnodup.of_map _

/-- The concrete self-referencing chain of the claim: the reversed
prefix chain for the include path `category.subcategories.subcategories`
at its deepest prefix — the same class `Category` occurs at every hop. -/
def c3chain : List Relationship :=
  [subcategoriesRel, subcategoriesRel, ⟨"category", "Category", false, none⟩]

/-- The join plan `select_aggregate` produces for `c3chain` from
counter 0. -/
def c3q : AggQuery :=
  ⟨⟨"Category", some 0⟩,
   [(⟨"Category", some 1⟩, "subcategories"),
    (⟨"Category", none⟩, "subcategories")],
   none, ⟨"category", "Category", false, none⟩⟩

/-- C3 witness: the theorem applied to the self-referencing chain in
which `Category` appears at every hop; the produced entities are
pairwise distinct. -/
theorem C3_witness :
    1 < c3chain.length ∧
    select_aggregate artSchema c3chain 0 = Except.ok (c3q, 2) ∧
    (∃ js lastJ, c3q.joins = js ++ [lastJ] ∧
      lastJ.1.uid = none ∧
      (c3q.fromEntity.uid :: js.map (fun j => j.1.uid)) =
        (List.range' 0 (js.length + 1)).map some ∧
      (c3q.fromEntity :: js.map Prod.fst).Nodup) :=
  ⟨by decide, rfl,
   C3_fresh_alias_per_hop artSchema c3chain 0 c3q 2 (by decide) rfl⟩

/-! ### Claim C9: counter-invariance of the observable query -/

/-- A single-hop chain takes the unaliased branch: no anonymous alias
is created and the counter passes through unchanged. -/
theorem select_aggregate_singleton (schema : Schema) (r : Relationship)
    (k : Nat) :
    select_aggregate schema [r] k =
      Except.ok (⟨⟨r.target, none⟩, [], r.secondary, r⟩, k) := rfl

/-- The stripped outcome of the middle-join loop does not depend on the
starting counter. -/
theorem joinMiddle_strip (schema : Schema) :
    ∀ (mid : List Relationship) (cls : String) (k1 k2 : Nat),
      (joinMiddle schema mid cls k1).map
          (fun t => (stripJoins t.1, t.2.1)) =
        (joinMiddle schema mid cls k2).map
          (fun t => (stripJoins t.1, t.2.1)) := by
  intro mid
  induction mid with
  | nil => intro cls k1 k2; rfl
  | cons rel rest ih =>
    intro cls k1 k2
    simp only [joinMiddle]
    cases hg : getattrRel schema cls rel.key with
    | error e => rfl
    | ok r =>
      simp only [exceptBind_ok]
      rcases except_map_eq_cases (ih rel.target (k1 + 1) (k2 + 1)) with
        ⟨e, h1, h2⟩ | ⟨⟨js1, c1, kx1⟩, ⟨js2, c2, kx2⟩, h1, h2, hg12⟩
      · rw [h1, h2]
        simp
      · rw [h1, h2]
        simp only [exceptBind_ok, exceptMap_ok]
        simp only [Prod.mk.injEq] at hg12
        simp only [stripJoins, List.map_cons] at hg12 ⊢
        rw [hg12.1, hg12.2]

/-- The stripped join plan of `select_aggregate` does not depend on the
starting counter. -/
theorem select_aggregate_strip (schema : Schema)
    (chain : List Relationship) (k1 k2 : Nat) :
    (select_aggregate schema chain k1).map (fun p => stripAgg p.1) =
      (select_aggregate schema chain k2).map (fun p => stripAgg p.1) := by
  cases chain with
  | nil => rfl
  | cons r0 rest =>
    simp only [select_aggregate]
    by_cases hlen : 1 < (r0 :: rest).length
    · rw [if_pos hlen, if_pos hlen]
      rcases except_map_eq_cases
          (joinMiddle_strip schema ((r0 :: rest).dropLast.dropLast)
            r0.target (k1 + 1) (k2 + 1)) with
        ⟨e, h1, h2⟩ | ⟨⟨js1, c1, kx1⟩, ⟨js2, c2, kx2⟩, h1, h2, hg12⟩
      · rw [h1, h2]
      · rw [h1, h2]
        dsimp only
        simp only [Prod.mk.injEq] at hg12
        rw [← hg12.2]
        cases hga : getattrRel schema c1 (rest.dropLast.getLastD r0).key with
        | error e => rfl
        | ok r2 =>
          simp only [exceptMap_ok]
          simp only [stripAgg, stripJoins, List.map_append, Prod.mk.injEq]
          simp only [stripJoins] at hg12
          rw [hg12.1]
    · rw [if_neg hlen, if_neg hlen]
      rfl

/-- The entries built by the relationship loop do not depend on the
counter: every per-relationship sub-query is a single-hop chain, which
creates no anonymous alias. -/
theorem buildRelLoop_fst (schema : Schema) (m : JSONMapping) :
    ∀ (rels : List Relationship) (k1 k2 : Nat),
      (buildRelLoop schema m rels k1).map Prod.fst =
        (buildRelLoop schema m rels k2).map Prod.fst := by
  intro rels
  induction rels with
  | nil => intro k1 k2; rfl
  | cons rel rest ih =>
    intro k1 k2
    simp only [buildRelLoop]
    cases hfc : findClass schema rel.target with
    | none => rfl
    | some tc =>
      simp only [exceptBind_ok]
      cases hit : build_id_and_type m tc with
      | error e => rfl
      | ok attrs =>
        simp only [exceptBind_ok, select_aggregate_singleton]
        rcases except_map_eq_cases (ih k1 k2) with
          ⟨e, h1, h2⟩ | ⟨⟨l1, x1⟩, ⟨l2, x2⟩, h1, h2, hl⟩
        · rw [h1, h2]
        · rw [h1, h2]
          simp only [exceptBind_ok, exceptMap_ok] at hl ⊢
          rw [hl]

/-- `build_relationships` output entries do not depend on the counter. -/
theorem build_relationships_fst (schema : Schema) (m : JSONMapping)
    (entity : EntityClass) (fields : Option Fields) (k1 k2 : Nat) :
    (build_relationships schema m entity fields k1).map Prod.fst =
      (build_relationships schema m entity fields k2).map Prod.fst := by
  simp only [build_relationships]
  cases ha : alistLookup (inversed m) entity.name with
  | none => simp [inversedGet, ha]
  | some ename =>
    simp only [inversedGet, ha, exceptBind_ok]
    cases hsub : pySubscript fields ename with
    | error e => rfl
    | ok flist =>
      simp only [exceptBind_ok]
      exact buildRelLoop_fst schema m _ k1 k2

/-- `build_attrs_and_relationships` output does not depend on the
counter. -/
theorem build_attrs_and_relationships_fst (schema : Schema)
    (m : JSONMapping) (entity : EntityClass) (fields : Option Fields)
    (k1 k2 : Nat) :
    (build_attrs_and_relationships schema m entity fields k1).map Prod.fst =
      (build_attrs_and_relationships schema m entity fields k2).map
        Prod.fst := by
  simp only [build_attrs_and_relationships]
  cases hat : build_attributes m entity fields with
  | error e => rfl
  | ok attrs =>
    simp only [exceptBind_ok]
    rcases except_map_eq_cases
        (build_relationships_fst schema m entity fields k1 k2) with
      ⟨e, h1, h2⟩ | ⟨⟨l1, x1⟩, ⟨l2, x2⟩, h1, h2, hl⟩
    · rw [h1, h2]
    · rw [h1, h2]
      simp only [exceptBind_ok, exceptMap_ok] at hl ⊢
      rw [hl]

/-- The root data block does not depend on the counter. -/
theorem build_data_fst (schema : Schema) (m : JSONMapping)
    (entity : EntityClass) (fields : Option Fields)
    (incl : Option (List String)) (k1 k2 : Nat) :
    (build_data schema m entity fields incl k1).map Prod.fst =
      (build_data schema m entity fields incl k2).map Prod.fst := by
  simp only [build_data]
  cases ha : alistLookup (inversed m) entity.name with
  | none => simp [inversedGet, ha]
  | some ename =>
    simp only [inversedGet, ha, exceptBind_ok]
    cases hit : build_id_and_type m entity with
    | error e => rfl
    | ok idt =>
      simp only [exceptBind_ok]
      by_cases hcond : (fieldsTruthy fields && fieldsHas fields ename) = true
      · rw [if_pos hcond, if_pos hcond]
        rcases except_map_eq_cases
            (build_attrs_and_relationships_fst schema m entity fields k1 k2)
          with ⟨e, h1, h2⟩ | ⟨⟨l1, x1⟩, ⟨l2, x2⟩, h1, h2, hl⟩
        · rw [h1, h2]
        · rw [h1, h2]
          simp only [exceptBind_ok, exceptMap_ok] at hl ⊢
          rw [hl]
      · rw [if_neg hcond, if_neg hcond]
        rfl

/-- The shared tail of one `buildEntriesGo` step: plan the aggregate
sub-query for the reversed prefix chain and recurse; its stripped
outcome does not depend on the counter. -/
theorem entriesTail_strip (schema : Schema) (m : JSONMapping)
    (fields : Option Fields) (rel : Relationship)
    (revSoFar rest : List Relationship)
    (ih : ∀ (rs : List Relationship) (j1 j2 : Nat),
      (buildEntriesGo schema m fields rs rest j1).map
          (fun p => stripEntries p.1) =
        (buildEntriesGo schema m fields rs rest j2).map
          (fun p => stripEntries p.1))
    (mf : List SExpr) (k1 k2 : Nat) :
    ((do
        let (q, kq) ← select_aggregate schema (rel :: revSoFar) k1
        let (restEntries, k3) ←
          buildEntriesGo schema m fields (rel :: revSoFar) rest kq
        Except.ok ((q, SExpr.jbo mf) :: restEntries, k3)) :
      Except PyError (List (AggQuery × SExpr) × Nat)).map
        (fun p => stripEntries p.1) =
      ((do
        let (q, kq) ← select_aggregate schema (rel :: revSoFar) k2
        let (restEntries, k3) ←
          buildEntriesGo schema m fields (rel :: revSoFar) rest kq
        Except.ok ((q, SExpr.jbo mf) :: restEntries, k3)) :
      Except PyError (List (AggQuery × SExpr) × Nat)).map
        (fun p => stripEntries p.1) := by
  rcases except_map_eq_cases
      (select_aggregate_strip schema (rel :: revSoFar) k1 k2) with
    ⟨e, h1, h2⟩ | ⟨⟨q1, c1⟩, ⟨q2, c2⟩, h1, h2, hq⟩
  · rw [h1, h2]
  · rw [h1, h2]
    simp only [exceptBind_ok]
    rcases except_map_eq_cases (ih (rel :: revSoFar) c1 c2) with
      ⟨e, g1, g2⟩ | ⟨⟨l1, d1⟩, ⟨l2, d2⟩, g1, g2, hl⟩
    · rw [g1, g2]
      rfl
    · rw [g1, g2]
      simp only [exceptBind_ok, exceptMap_ok] at hl hq ⊢
      simp only [stripEntries, List.map_cons] at hl ⊢
      rw [hl, hq]

/-- The stripped entries of the include loop do not depend on the
counter. -/
theorem buildEntriesGo_strip (schema : Schema) (m : JSONMapping)
    (fields : Option Fields) :
    ∀ (rels revSoFar : List Relationship) (k1 k2 : Nat),
      (buildEntriesGo schema m fields revSoFar rels k1).map
          (fun p => stripEntries p.1) =
        (buildEntriesGo schema m fields revSoFar rels k2).map
          (fun p => stripEntries p.1) := by
  intro rels
  induction rels with
  | nil => intro revSoFar k1 k2; rfl
  | cons rel rest ih =>
    intro revSoFar k1 k2
    simp only [buildEntriesGo]
    cases hfc : findClass schema rel.target with
    | none => rfl
    | some cls =>
      simp only [exceptBind_ok]
      cases ha : inversedGet m cls.name with
      | error e => rfl
      | ok cls_alias =>
        simp only [exceptBind_ok]
        cases hit : build_id_and_type m cls with
        | error e => rfl
        | ok idType =>
          simp only [exceptBind_ok]
          cases hin : pyInOpt cls_alias fields with
          | error e => rfl
          | ok inF =>
            simp only [exceptBind_ok]
            cases inF with
            | false =>
              simp only [Bool.false_eq_true, if_false, exceptBind_ok]
              exact entriesTail_strip schema m fields rel revSoFar rest
                (fun rs j1 j2 => ih rs j1 j2) idType k1 k2
            | true =>
              simp only [if_true]
              cases hat : build_attributes m cls fields with
              | error e => rfl
              | ok attrs =>
                simp only [exceptBind_ok]
                exact entriesTail_strip schema m fields rel revSoFar rest
                  (fun rs j1 j2 => ih rs j1 j2)
                  (idType ++ [s "attributes", SExpr.jbo attrs]) k1 k2

/-- The stripped union entries over all include paths do not depend on
the counter. -/
theorem buildPathsGo_strip (schema : Schema) (m : JSONMapping)
    (entity : EntityClass) (fields : Option Fields) :
    ∀ (paths : List String) (k1 k2 : Nat),
      (buildPathsGo schema m entity fields paths k1).map
          (fun p => stripEntries p.1) =
        (buildPathsGo schema m entity fields paths k2).map
          (fun p => stripEntries p.1) := by
  intro paths
  induction paths with
  | nil => intro k1 k2; rfl
  | cons path rest ih =>
    intro k1 k2
    simp only [buildPathsGo]
    cases hres : path_to_relationships schema path entity.name with
    | error e => rfl
    | ok rels =>
      simp only [exceptBind_ok]
      rcases except_map_eq_cases
          (buildEntriesGo_strip schema m fields rels [] k1 k2) with
        ⟨e, h1, h2⟩ | ⟨⟨l1, c1⟩, ⟨l2, c2⟩, h1, h2, hl⟩
      · rw [h1, h2]
      · rw [h1, h2]
        simp only [exceptBind_ok]
        rcases except_map_eq_cases (ih c1 c2) with
          ⟨e, g1, g2⟩ | ⟨⟨l1', d1⟩, ⟨l2', d2⟩, g1, g2, hl'⟩
        · rw [g1, g2]
          rfl
        · rw [g1, g2]
          simp only [exceptBind_ok, exceptMap_ok] at hl hl' ⊢
          simp only [stripEntries, List.map_append] at hl hl' ⊢
          rw [hl, hl']

/-- The stripped included block does not depend on the counter. -/
theorem build_included_strip (schema : Schema) (m : JSONMapping)
    (entity : EntityClass) (fields : Option Fields)
    (incl : Option (List String)) (k1 k2 : Nat) :
    (build_included schema m entity fields incl k1).map
        (fun p => p.1.map stripEntries) =
      (build_included schema m entity fields incl k2).map
        (fun p => p.1.map stripEntries) := by
  simp only [build_included]
  by_cases hinc : includeTruthy incl = true
  · rw [if_pos hinc, if_pos hinc]
    rcases except_map_eq_cases
        (buildPathsGo_strip schema m entity fields (incl.getD []) k1 k2) with
      ⟨e, h1, h2⟩ | ⟨⟨l1, c1⟩, ⟨l2, c2⟩, h1, h2, hl⟩
    · rw [h1, h2]
    · rw [h1, h2]
      simp only [exceptBind_ok, exceptMap_ok] at hl ⊢
      cases l1 with
      | nil =>
        cases l2 with
        | nil => rfl
        | cons x xs => simp [stripEntries] at hl
      | cons x xs =>
        cases l2 with
        | nil => simp [stripEntries] at hl
        | cons y ys =>
          simp [reduceUnion, hl]
  · rw [if_neg hinc, if_neg hinc]
    rfl

/-- C9: building the same `(rootType, fields, include)` twice yields
structurally identical queries — the observable result is independent
of the anonymous-alias counter (the only state threaded through the
build), so no hidden mutable state changes the produced document
between two successive invocations; internal alias identifiers, which
are not observable in the result document, are erased by `stripQuery`. -/
theorem C9_select_idempotent (schema : Schema) (m : JSONMapping)
    (entity : EntityClass) (fields : Option Fields)
    (incl : Option (List String)) (k1 k2 : Nat) :
    (select schema m entity fields incl k1).map (fun p => stripQuery p.1) =
      (select schema m entity fields incl k2).map
        (fun p => stripQuery p.1) := by
  simp only [select]
  rcases except_map_eq_cases
      (build_data_fst schema m entity fields incl k1 k2) with
    ⟨e, h1, h2⟩ | ⟨⟨d1, c1⟩, ⟨d2, c2⟩, h1, h2, hd⟩
  · rw [h1, h2]
  · rw [h1, h2]
    simp only [exceptBind_ok, exceptMap_ok] at hd ⊢
    rcases except_map_eq_cases
        (build_included_strip schema m entity fields incl c1 c2) with
      ⟨e, g1, g2⟩ | ⟨⟨i1, x1⟩, ⟨i2, x2⟩, g1, g2, hi⟩
    · rw [g1, g2]
      rfl
    · rw [g1, g2]
      simp only [exceptBind_ok, exceptMap_ok] at hi ⊢
      simp only [stripQuery]
      rw [hd]
      simp only [Except.ok.injEq, Query.mk.injEq]
      exact ⟨trivial, by simpa using hi⟩

end JsonApi
